import Mathlib

/-!
Shallow embedding of the dataset-assembly pipeline of
`src/scraper/scrape.py` (module-level regex patterns, the dataclasses
`Country`, `City`, `RoutePoint`, `Route`, `Meal`, `Room`, `Hotel`,
`RawDataSet`, `DataSet`, and the parsing methods of `DataSet`), together
with theorems settling the specification claims about it.

Python strings are modelled as `String` (with regex scanning performed on
`List Char`, matching Python's codepoint indexing); Python `dict`s as
insertion-ordered association lists with unique keys; Python exceptions as
`Except AssembleError`; the geolocation floats — which the pipeline only
copies, never computes with — as integers.
-/

/-! ## String helpers -/

/-- Characters treated as word characters by the `\b` in the occupancy
pattern `r"[ \-]os\b"`.  Approximates Python's Unicode word class: ASCII
alphanumerics, underscore, and every non-ASCII character (all non-ASCII
characters occurring in this data are Polish letters, which Python counts
as word characters). -/
def isWordChar (c : Char) : Bool :=
  c.isAlphanum || c == '_' || 128 ≤ c.toNat

/-- The character class `[ \-]` shared by both room-text patterns. -/
def isSpaceOrHyphen (c : Char) : Bool :=
  c == ' ' || c == '-'

/-- Python's `str.endswith`, computed on the character lists (the
built-in `String.endsWith` is byte-based and not kernel-reducible). -/
def strEndsWith (s suf : String) : Bool :=
  suf.data.isSuffixOf s.data

/-- Python's `str.removesuffix`: drop `suf` when it is a suffix of `s`. -/
def removesuffix (s suf : String) : String :=
  if suf.data.isSuffixOf s.data then
    ⟨s.data.take (s.data.length - suf.data.length)⟩
  else s

/-- The ski-resort suffix marker `"-narty"`. -/
def skiSuffix : String := "-narty"

/-! ## Room-capacity text heuristics (`_parse_room` and its regexes) -/

/-- Does `ROOM_FIRST_SPLIT_PATTERN = r"[ \-]os\b"` match `s` starting at
index `i`?  The `\b` holds after the `s` when the next character is absent
or not a word character. -/
def occMatchAt (s : List Char) (i : Nat) : Bool :=
  match s.drop i with
  | a :: 'o' :: 's' :: rest =>
    isSpaceOrHyphen a &&
      (match rest with
       | [] => true
       | c :: _ => !isWordChar c)
  | _ => false

/-- `ROOM_FIRST_SPLIT_PATTERN.search(s)`: the span `(start, end)` of the
leftmost match (the match is always three characters long). -/
def occSearch (s : List Char) : Option (Nat × Nat) :=
  ((List.range s.length).find? (fun i => occMatchAt s i)).map (fun i => (i, i + 3))

/-- Does `ROOM_SECOND_SPLIT_PATTERN = r"[ \-]dost"` match `s` starting at
index `i`? -/
def dostMatchAt (s : List Char) (i : Nat) : Bool :=
  match s.drop i with
  | a :: 'd' :: 'o' :: 's' :: 't' :: _ => isSpaceOrHyphen a
  | _ => false

/-- `ROOM_SECOND_SPLIT_PATTERN.search(s, pos)`: the start index of the
leftmost match beginning at or after `pos`. -/
def dostSearch (s : List Char) (pos : Nat) : Option Nat :=
  (List.range s.length).find? (fun i => decide (pos ≤ i) && dostMatchAt s i)

/-- The integer values of the matches of `ROOM_DIGIT_PATTERN = r"\d"` in
`s` restricted to indices in `[lo, hi)`, mirroring
`int(m.group()) for m in ROOM_DIGIT_PATTERN.finditer(s, lo, hi)`.
Each match is a single digit character. -/
def digitValsIn (s : List Char) (lo hi : Nat) : List Nat :=
  (((s.drop lo).take (hi - lo)).filter Char.isDigit).map
    (fun c => c.toNat - '0'.toNat)

/-- Python's `max(xs, default := d)`. -/
def pyMax (xs : List Nat) (d : Nat) : Nat :=
  match xs with
  | [] => d
  | x :: rest => rest.foldl Nat.max x

/-- `Room` dataclass (frozen, value equality). -/
structure Room where
  title : String
  bed_count : Nat
  extra_bed_count : Nat
deriving DecidableEq

/-- The candidate loop of `DataSet._parse_room`, threading the
`bed_count`/`extra_bed_count` accumulators (initially `1` and `0`): scan
the candidates in order for the occupancy marker; on the first hit,
compute the counts from that candidate alone and stop.  Returns `none`
when no candidate contains the marker (the loop's `else: return`). -/
def roomLoop : List (List Char) → Nat → Nat → Option (Nat × Nat)
  | [], _, _ => none
  | c :: rest, bed_count, extra_bed_count =>
    match occSearch c with
    | none => roomLoop rest bed_count extra_bed_count
    | some (regular_start, regular_end) =>
      let bed_count :=
        Nat.max bed_count (pyMax (digitValsIn c 0 regular_start) bed_count)
      match dostSearch c regular_end with
      | none => some (bed_count, extra_bed_count)
      | some extra_start =>
        some (bed_count,
          Nat.max extra_bed_count
            (Nat.max 1
              (pyMax (digitValsIn c regular_end extra_start) extra_bed_count)))

/-- A section of a `"rooms"` description block: its title and the items of
`section["lists"][0]` (the input schema gives each section one bullet list). -/
structure RoomSection where
  title : String
  items : List String
deriving DecidableEq

/-- The candidates scanned by `DataSet._parse_room`:
`(section["title"], *section["lists"][0]["items"])`. -/
def sectionCandidates (sec : RoomSection) : List (List Char) :=
  (sec.title :: sec.items).map String.data

/-- `DataSet._parse_room`'s text heuristic: the `Room` produced from a
section, if any (the conditional append to `hotel.rooms` is performed by
the caller in this embedding). -/
def parse_room (sec : RoomSection) : Option Room :=
  match roomLoop (sectionCandidates sec) 1 0 with
  | none => none
  | some (b, e) => some ⟨sec.title, b, e⟩

/-! ## Insertion-ordered maps (Python `dict`) -/

/-- A Python `dict` with string keys: an insertion-ordered association
list.  Keys are unique in every map built by the pipeline. -/
abbrev Dict (α : Type) := List (String × α)

/-- `m[k]` lookup (first entry with key `k`). -/
def alGet {α : Type} : Dict α → String → Option α
  | [], _ => none
  | p :: rest, k => if p.1 = k then some p.2 else alGet rest k

/-- `k in m`. -/
def alHas {α : Type} (m : Dict α) (k : String) : Bool :=
  (alGet m k).isSome

/-- `m[k] = v`: update the entry in place when the key is present,
append it otherwise (Python `dict` assignment; keys are unique, so
replacing the first occurrence is the dict semantics). -/
def alInsert {α : Type} : Dict α → String → α → Dict α
  | [], k, v => [(k, v)]
  | p :: rest, k, v => if p.1 = k then (k, v) :: rest else p :: alInsert rest k v

/-! ## Domain dataclasses -/

/-- `City` dataclass ("province" in the API). -/
structure City where
  identifier : String
  title : String
deriving DecidableEq

/-- `Country` dataclass. -/
structure Country where
  identifier : String
  title : String
  cities : Dict City
deriving DecidableEq

/-- `RoutePoint` dataclass: bus stop or airport. -/
structure RoutePoint where
  code : String
  city : String
deriving DecidableEq

/-- `Route` dataclass. -/
structure Route where
  origin : RoutePoint
  via : List RoutePoint
  destination : RoutePoint
deriving DecidableEq

/-- `Route.key`: hyphen-joined codes of origin, via (in order),
destination. -/
def Route.key (r : Route) : String :=
  String.intercalate "-" ((r.origin :: r.via ++ [r.destination]).map RoutePoint.code)

/-- `Meal` dataclass (frozen, value equality). -/
structure Meal where
  identifier : String
  title : String
deriving DecidableEq

/-- `Hotel` dataclass.  The geolocation floats are only copied from the
raw segment, never computed with, and are modelled as integers. -/
structure Hotel where
  title : String
  hotel_rating : Int
  destination_country_id : String
  destination_city_id : Option String
  latitude : Int
  longitude : Int
  meals : List Meal
  rooms : List Room
deriving DecidableEq

/-! ## Raw input records (the JSON shapes read by the parsing methods) -/

/-- An entry of the raw `destination_regions` list:
`{type, value, title, parent}`. -/
structure RawRegion where
  type : String
  value : String
  title : String
  parent : String
deriving DecidableEq

/-- A `{code, city}` entry of a transport detail (`from`, `to`, or a
member of `via`). -/
structure RawPoint where
  code : String
  city : String
deriving DecidableEq

/-- `segment["transportDetails"]`: the `from`/`to`/`via` route points
(fields renamed because `from` is reserved in Lean). -/
structure TransportDetails where
  fromPoint : RawPoint
  toPoint : RawPoint
  via : List RawPoint
deriving DecidableEq

/-- An entry of a rate's detailed segment list: `{type, transportDetails}`. -/
structure DetailedSegment where
  type : String
  transportDetails : Option TransportDetails
deriving DecidableEq

/-- `segment["content"]` of a hotel segment: the fields read by
`_parse_hotel`.  `destinationProvinceId` models
`(content["destinations"]["province"] or {}).get("id")`. -/
structure HotelContent where
  title : String
  hotelRating : Int
  destinationCountryId : String
  destinationProvinceId : Option String
  geolocation : Option (Int × Int)
deriving DecidableEq

/-- `segment["meal"]`: `{id, title}`. -/
structure RawMeal where
  id : String
  title : String
deriving DecidableEq

/-- An entry of `rate["segments"]`: a hotel segment carries `content` and
`meal`; anything else only its `type` string (never `"hotel"`). -/
inductive RateSegment where
  | hotel (content : HotelContent) (meal : RawMeal)
  | nonHotel (type : String)
deriving DecidableEq

/-- A description block of a product content: `{id, sections}`. -/
structure ContentBlock where
  id : String
  sections : List RoomSection
deriving DecidableEq

/-- `product_content`: the destination country title used for city-label
repair (`["destination"]["country"]["title"]`) and the `descriptions`
list scanned for rooms. -/
structure ProductContent where
  destinationCountryTitle : String
  descriptions : List ContentBlock
deriving DecidableEq

/-- A raw rate record: the fields `_parse_rates` reads (`id`,
`segments`).  The rest of the record is opaque and irrelevant here. -/
structure RawRate where
  id : String
  segments : Option (List RateSegment)
deriving DecidableEq

/-- The deep-copied rate stored in `DataSet.rates`, augmented with its
`detailedSegments` and `productContent` side-data. -/
structure StoredRate where
  rate : RawRate
  detailedSegments : Option (List DetailedSegment)
  productContent : Option ProductContent
deriving DecidableEq

/-- `RawDataSet`: the four top-level raw collections, each possibly
absent.  The two maps may hold `none` values (the fetch phase stores
`None` when a query fails). -/
structure RawDataSet where
  destination_regions : Option (List RawRegion)
  rates : Option (List RawRate)
  transport_details : Option (Dict (Option (List DetailedSegment)))
  all_product_content : Option (Dict (Option ProductContent))
deriving DecidableEq

/-- `DataSet`: the normalized output. -/
structure DataSet where
  countries : Dict Country
  airports : Dict RoutePoint
  flight_routes : Dict Route
  bus_stops : Dict RoutePoint
  bus_routes : Dict Route
  hotels : Dict Hotel
  meals : Dict Meal
  rates : Dict StoredRate
deriving DecidableEq

/-- The ways assembly can abort.  `missingInput` is the explicit
`raise TypeError()` on an absent required collection (the spec's
`MissingInputError`); `keyLookup` is a Python `KeyError` from a failed
dict subscript; `noneContent` is the `TypeError` from subscripting a
`None` product content during city-label repair. -/
inductive AssembleError where
  | missingInput
  | keyLookup (key : String)
  | noneContent
deriving DecidableEq

instance {e a : Type} [DecidableEq e] [DecidableEq a] : DecidableEq (Except e a) := fun x y =>
  match x, y with
  | .ok u, .ok v =>
    if h : u = v then .isTrue (by rw [h]) else .isFalse (by simp [h])
  | .ok _, .error _ => .isFalse (by simp)
  | .error _, .ok _ => .isFalse (by simp)
  | .error u, .error v =>
    if h : u = v then .isTrue (by rw [h]) else .isFalse (by simp [h])

/-! ## `DataSet._parse_destination_regions` -/

/-- The first pass: for every region of type `"country"` whose identifier
does not end in `"-narty"`, (re)create a fresh `Country` entry. -/
def countryPass (regions : List RawRegion) : Dict Country :=
  regions.foldl
    (fun countries region =>
      if region.type = "country" ∧ strEndsWith region.value skiSuffix = false then
        alInsert countries region.value ⟨region.value, region.title, []⟩
      else countries)
    []

/-- The second pass: attach a `City` to the country looked up under the
province's parent identifier with the `"-narty"` suffix stripped; a
failed lookup is a `KeyError`. -/
def provincePass : List RawRegion → Dict Country → Except AssembleError (Dict Country)
  | [], countries => .ok countries
  | region :: rest, countries =>
    if region.type = "province" then
      match alGet countries (removesuffix region.parent skiSuffix) with
      | none => .error (.keyLookup (removesuffix region.parent skiSuffix))
      | some country =>
        provincePass rest
          (alInsert countries (removesuffix region.parent skiSuffix)
            { country with
              cities := alInsert country.cities region.value ⟨region.value, region.title⟩ })
    else provincePass rest countries

/-- `DataSet._parse_destination_regions`: `raise TypeError()` when the
collection is absent, else the two passes over it. -/
def parse_destination_regions (regions : Option (List RawRegion)) :
    Except AssembleError (Dict Country) :=
  match regions with
  | none => .error .missingInput
  | some regions => provincePass regions (countryPass regions)

/-! ## `DataSet._parse_transport_details` -/

/-- The city-label repair of `_parse_transport_details`: when a point's
city label equals its code, replace it with
`product_content["destination"]["country"]["title"]` — subscripting a
`None` product content is a `TypeError`. -/
def repairCity (product_content : Option ProductContent) (p : RoutePoint) :
    Except AssembleError RoutePoint :=
  if p.code = p.city then
    match product_content with
    | none => .error .noneContent
    | some pc => .ok { p with city := pc.destinationCountryTitle }
  else .ok p

/-- `DataSet._parse_transport_details`: build origin/via/destination
route points, repair the origin and destination city labels, store the
route under its key and every point under its code.  No-op when the
segment carries no transport details. -/
def parse_transport_details (product_content : Option ProductContent)
    (transport_details : Option TransportDetails)
    (routes : Dict Route) (route_points : Dict RoutePoint) :
    Except AssembleError (Dict Route × Dict RoutePoint) :=
  match transport_details with
  | none => .ok (routes, route_points)
  | some td =>
    match repairCity product_content ⟨td.fromPoint.code, td.fromPoint.city⟩ with
    | .error e => .error e
    | .ok origin =>
      match repairCity product_content ⟨td.toPoint.code, td.toPoint.city⟩ with
      | .error e => .error e
      | .ok destination =>
        let via := td.via.map (fun p => RoutePoint.mk p.code p.city)
        let route : Route := ⟨origin, via, destination⟩
        let routes := alInsert routes route.key route
        let route_points := alInsert route_points origin.code origin
        let route_points := alInsert route_points destination.code destination
        let route_points := via.foldl (fun ps p => alInsert ps p.code p) route_points
        .ok (routes, route_points)

/-! ## `DataSet._parse_hotel` -/

/-- `DataSet._parse_hotel`: drop the segment (returning no title) when
geolocation is absent; otherwise look up or create the hotel keyed by
title, register the meal in the dataset-wide meal table, append it to the
hotel's meal list unless already present, and return the hotel's title
(the caller's handle to the mutated entry). -/
def parse_hotel (hotels : Dict Hotel) (meals : Dict Meal)
    (content : HotelContent) (raw_meal : RawMeal) :
    Dict Hotel × Dict Meal × Option String :=
  match content.geolocation with
  | none => (hotels, meals, none)
  | some geo =>
    let hotel :=
      match alGet hotels content.title with
      | some h => h
      | none =>
        { title := content.title
          hotel_rating := content.hotelRating
          destination_country_id := removesuffix content.destinationCountryId skiSuffix
          destination_city_id := content.destinationProvinceId
          latitude := geo.1
          longitude := geo.2
          meals := []
          rooms := [] }
    let meal : Meal := ⟨raw_meal.id, raw_meal.title⟩
    let hotel :=
      if meal ∈ hotel.meals then hotel
      else { hotel with meals := hotel.meals ++ [meal] }
    (alInsert hotels content.title hotel, alInsert meals meal.identifier meal,
      some content.title)

/-- The hotel-segment loop of `_parse_rates`: call `_parse_hotel` on each
segment of type `"hotel"` in turn, stopping at the first one that yields
a hotel. -/
def hotelSegmentLoop : List RateSegment → Dict Hotel → Dict Meal →
    Dict Hotel × Dict Meal × Option String
  | [], hotels, meals => (hotels, meals, none)
  | .nonHotel _ :: rest, hotels, meals => hotelSegmentLoop rest hotels meals
  | .hotel content meal :: rest, hotels, meals =>
    match parse_hotel hotels meals content meal with
    | (hotels, meals, some title) => (hotels, meals, some title)
    | (hotels, meals, none) => hotelSegmentLoop rest hotels meals

/-! ## `DataSet._parse_rooms` and the cleanup pass -/

/-- The per-section part of `_parse_room` acting on the hotel: append the
parsed room unless the section is skipped or the room is already present
by value equality. -/
def addRoom (hotel : Hotel) (sec : RoomSection) : Hotel :=
  match parse_room sec with
  | none => hotel
  | some room =>
    if room ∈ hotel.rooms then hotel
    else { hotel with rooms := hotel.rooms ++ [room] }

/-- `DataSet._parse_rooms`: scan every description block with id
`"rooms"` and parse each of its sections. -/
def parse_rooms (hotel : Hotel) (pc : ProductContent) : Hotel :=
  pc.descriptions.foldl
    (fun h block => if block.id = "rooms" then block.sections.foldl addRoom h else h)
    hotel

/-- `DataSet._cleanup_incomplete_hotels`: delete every hotel whose room
list or meal list is empty. -/
def cleanup_incomplete_hotels (hotels : Dict Hotel) : Dict Hotel :=
  hotels.filter (fun p => !(p.2.rooms.isEmpty || p.2.meals.isEmpty))

/-! ## `DataSet._parse_rates` -/

/-- The transport-segment loop of `_parse_rates`: dispatch each detailed
segment to `_parse_transport_details` by kind — flights into
`flight_routes`/`airports`, buses into `bus_routes`/`bus_stops`. -/
def transportLoop (product_content : Option ProductContent) :
    List DetailedSegment → DataSet → Except AssembleError DataSet
  | [], ds => .ok ds
  | seg :: rest, ds =>
    if seg.type = "flight" then
      match parse_transport_details product_content seg.transportDetails
          ds.flight_routes ds.airports with
      | .error e => .error e
      | .ok (fr, ap) =>
        transportLoop product_content rest { ds with flight_routes := fr, airports := ap }
    else if seg.type = "bus" then
      match parse_transport_details product_content seg.transportDetails
          ds.bus_routes ds.bus_stops with
      | .error e => .error e
      | .ok (br, bs) =>
        transportLoop product_content rest { ds with bus_routes := br, bus_stops := bs }
    else transportLoop product_content rest ds

/-- The tail of the per-rate loop (lines 368-374 of the source): when a
hotel was produced and the product content is not `None`, parse the
hotel's rooms into the hotel map entry; otherwise continue unchanged. -/
def roomPhase (product_content : Option ProductContent)
    (hotelTitle : Option String) (ds : DataSet) : DataSet :=
  match hotelTitle, product_content with
  | some title, some pc =>
    (match alGet ds.hotels title with
     | none => ds
     | some h => { ds with hotels := alInsert ds.hotels title (parse_rooms h pc) })
  | _, _ => ds

/-- The body of the per-rate loop of `_parse_rates`: look up the side
data (`transport_details` tolerantly via `.get`, `all_product_content`
by a subscript that raises `KeyError` when the id is absent), record the
deep-copied rate augmented with both, run the transport loop, ingest the
first hotel segment that yields a hotel, and run the room phase.  (The
source stores the copied rate before the product-content subscript; on
the raising path the whole assembly aborts and the difference is
unobservable.) -/
def parseRateStep (raw_transport_details : Dict (Option (List DetailedSegment)))
    (raw_all_product_content : Dict (Option ProductContent))
    (ds : DataSet) (rate : RawRate) : Except AssembleError DataSet :=
  match alGet raw_all_product_content rate.id with
  | none => .error (.keyLookup rate.id)
  | some product_content =>
    let detailed_segments := (alGet raw_transport_details rate.id).bind id
    let ds := { ds with
      rates := alInsert ds.rates rate.id ⟨rate, detailed_segments, product_content⟩ }
    match transportLoop product_content (detailed_segments.getD []) ds with
    | .error e => .error e
    | .ok ds =>
      match hotelSegmentLoop (rate.segments.getD []) ds.hotels ds.meals with
      | (hotels, meals, hotelTitle) =>
        .ok (roomPhase product_content hotelTitle
          { ds with hotels := hotels, meals := meals })

/-- The rate loop of `_parse_rates`. -/
def ratesLoop (raw_transport_details : Dict (Option (List DetailedSegment)))
    (raw_all_product_content : Dict (Option ProductContent)) :
    List RawRate → DataSet → Except AssembleError DataSet
  | [], ds => .ok ds
  | rate :: rest, ds =>
    match parseRateStep raw_transport_details raw_all_product_content ds rate with
    | .error e => .error e
    | .ok ds => ratesLoop raw_transport_details raw_all_product_content rest ds

/-- `DataSet._parse_rates`: `raise TypeError()` when any of the three raw
collections is absent; otherwise run the rate loop and then the cleanup
pass. -/
def parse_rates (ds : DataSet) (raw_rates : Option (List RawRate))
    (raw_transport_details : Option (Dict (Option (List DetailedSegment))))
    (raw_all_product_content : Option (Dict (Option ProductContent))) :
    Except AssembleError DataSet :=
  match raw_rates, raw_transport_details, raw_all_product_content with
  | some rates, some td, some pc =>
    (match ratesLoop td pc rates ds with
     | .error e => .error e
     | .ok ds => .ok { ds with hotels := cleanup_incomplete_hotels ds.hotels })
  | _, _, _ => .error .missingInput

/-- The empty dataset `DataSet.from_raw` starts from. -/
def emptyDataSet : DataSet :=
  ⟨[], [], [], [], [], [], [], []⟩

/-- `DataSet.from_raw`: parse the destination regions, then the rates
with their side data.  An exception on either step aborts the whole
assembly with no dataset produced. -/
def from_raw (raw : RawDataSet) : Except AssembleError DataSet :=
  match parse_destination_regions raw.destination_regions with
  | .error e => .error e
  | .ok countries =>
    parse_rates { emptyDataSet with countries := countries }
      raw.rates raw.transport_details raw.all_product_content

/-! ## Auxiliary definitions used by the theorems -/

/-- Modelled from the spec's repair rule: replace a route point's city
label by the destination country title exactly when it equals the
point's code. -/
def specRepair (pc : ProductContent) (p : RoutePoint) : RoutePoint :=
  if p.code = p.city then { p with city := pc.destinationCountryTitle } else p

/-- The route `_parse_transport_details` builds from a detail block:
repaired origin and destination, but the via sequence taken verbatim. -/
def repairedRoute (pc : ProductContent) (td : TransportDetails) : Route :=
  ⟨specRepair pc ⟨td.fromPoint.code, td.fromPoint.city⟩,
   td.via.map (fun q => RoutePoint.mk q.code q.city),
   specRepair pc ⟨td.toPoint.code, td.toPoint.city⟩⟩

/-- The ordered code sequence of a transport detail:
origin, via (in order), destination. -/
def tdCodes (td : TransportDetails) : List String :=
  td.fromPoint.code :: td.via.map RawPoint.code ++ [td.toPoint.code]

/-- The raw bundle behind the C3 counterexample: all four collections
present, one rate whose id appears in neither side-data map. -/
def c3raw : RawDataSet := ⟨some [], some [⟨"r1", some []⟩], some [], some []⟩

/-- The raw bundle behind the C6 counterexample: all four collections
supplied, but a rate id missing from the product-content map. -/
def c6raw : RawDataSet := ⟨some [], some [⟨"r1", some []⟩], some [], some []⟩

/-! ## Basic facts about `Dict` operations -/

theorem alGet_alInsert_self {α : Type} (m : Dict α) (k : String) (v : α) :
    alGet (alInsert m k v) k = some v := by
  induction m with
  | nil => simp [alInsert, alGet]
  | cons p rest ih =>
    by_cases h : p.1 = k <;> simp [alInsert, alGet, h, ih]

theorem alGet_alInsert_ne {α : Type} (m : Dict α) (k j : String) (v : α)
    (h : j ≠ k) : alGet (alInsert m k v) j = alGet m j := by
  induction m with
  | nil => simp [alInsert, alGet, Ne.symm h]
  | cons p rest ih =>
    by_cases hp : p.1 = k
    · subst hp
      simp [alInsert, alGet, Ne.symm h]
    · by_cases hj : p.1 = j <;> simp [alInsert, alGet, hp, hj, h, ih]

theorem alHas_alInsert {α : Type} (m : Dict α) (k j : String) (v : α) :
    alHas (alInsert m k v) j = (if j = k then true else alHas m j) := by
  by_cases h : j = k
  · subst h; simp [alHas, alGet_alInsert_self]
  · simp [alHas, alGet_alInsert_ne m k j v h, h]

theorem alInsert_length_of_has {α : Type} (m : Dict α) (k : String) (v : α)
    (h : alHas m k = true) : (alInsert m k v).length = m.length := by
  induction m with
  | nil => simp [alHas, alGet] at h
  | cons p rest ih =>
    by_cases hp : p.1 = k
    · simp [alInsert, hp]
    · simp only [alHas, alGet, hp, if_false] at h
      simp [alInsert, hp, ih h]

/-! ## Facts about the room-text heuristic -/

/-- When no candidate contains the occupancy marker, the candidate loop
returns nothing, whatever the accumulators are. -/
theorem roomLoop_of_no_marker (cs : List (List Char)) (b e : Nat)
    (h : ∀ c ∈ cs, occSearch c = none) : roomLoop cs b e = none := by
  induction cs with
  | nil => rfl
  | cons c rest ih =>
    simp only [roomLoop, h c (List.mem_cons_self c rest)]
    exact ih (fun x hx => h x (List.mem_cons_of_mem c hx))

/-- Candidates without the occupancy marker are skipped without touching
the accumulators. -/
theorem roomLoop_append_no_marker (pre cs : List (List Char)) (b e : Nat)
    (h : ∀ c ∈ pre, occSearch c = none) :
    roomLoop (pre ++ cs) b e = roomLoop cs b e := by
  induction pre with
  | nil => rfl
  | cons c rest ih =>
    simp only [List.cons_append, roomLoop, h c (List.mem_cons_self c rest)]
    exact ih (fun x hx => h x (List.mem_cons_of_mem c hx))

/-- **C1 counterexample.**  The claim expects
`"Pokój 2-osobowy z 1 dost"` to yield `bed_count = 2, extra_bed_count = 1`,
but the occupancy pattern `r"[ \-]os\b"` requires a word boundary after
`os`, which `-osobowy` does not provide: no room is produced at all. -/
theorem c1_counterexample :
    parse_room ⟨"Pokój 2-osobowy z 1 dost", []⟩ = none ∧
    parse_room ⟨"Pokój 2-osobowy z 1 dost", []⟩ ≠
      some ⟨"Pokój 2-osobowy z 1 dost", 2, 1⟩ := by decide

/-- **C1 (amended).**  `parseSection` on a section whose text candidates
are exactly the given strings yields: for `"Pokój 2-osobowy z 1 dost"` no
room (the `\b` after `os` fails before `obowy`); for `"Pokój 3 os"` a room
with `bed_count = 3` and `extra_bed_count = 0`; for
`"Pokój 2-os z 1 dost"` a room with `bed_count = 2` and
`extra_bed_count = 1`; and for any section none of whose candidates
contains an occupancy marker, no room at all. -/
theorem c1_room_text_examples (sec : RoomSection)
    (h : ∀ c ∈ sectionCandidates sec, occSearch c = none) :
    parse_room ⟨"Pokój 2-osobowy z 1 dost", []⟩ = none ∧
    parse_room ⟨"Pokój 3 os", []⟩ = some ⟨"Pokój 3 os", 3, 0⟩ ∧
    parse_room ⟨"Pokój 2-os z 1 dost", []⟩ = some ⟨"Pokój 2-os z 1 dost", 2, 1⟩ ∧
    parse_room sec = none := by
  refine ⟨by decide, by decide, by decide, ?_⟩
  simp [parse_room, roomLoop_of_no_marker _ 1 0 h]

/-- Witness for `c1_room_text_examples` at a marker-free section. -/
theorem c1_room_text_examples_witness :
    parse_room ⟨"Pokój 2-osobowy z 1 dost", []⟩ = none ∧
    parse_room ⟨"Pokój 3 os", []⟩ = some ⟨"Pokój 3 os", 3, 0⟩ ∧
    parse_room ⟨"Pokój 2-os z 1 dost", []⟩ = some ⟨"Pokój 2-os z 1 dost", 2, 1⟩ ∧
    parse_room ⟨"Apartament", ["dwupokojowy"]⟩ = none :=
  c1_room_text_examples ⟨"Apartament", ["dwupokojowy"]⟩ (by decide)

/-- **C2 counterexample.**  For the candidate `"12 os"` the digit pattern
`r"\d"` matches the single digits `1` and `2` separately, so the base bed
count is `2`, not the digit-run value `12` the claim requires. -/
theorem c2_counterexample :
    parse_room ⟨"12 os", []⟩ = some ⟨"12 os", 2, 0⟩ ∧
    parse_room ⟨"12 os", []⟩ ≠ some ⟨"12 os", 12, 0⟩ := by decide

/-- **C2 (amended).**  For the first candidate containing an occupancy
marker, the base bed count is the maximum of the *single digits* (not
digit runs) appearing before the marker, with default `1`; when an
extra-bed marker follows in the same candidate, `extra_bed_count` is the
maximum of the single digits between the two markers and `1`. -/
theorem c2_single_digit_max (sec : RoomSection) (pre : List (List Char))
    (cd : List Char) (rest : List (List Char)) (rs re : Nat)
    (hsplit : sectionCandidates sec = pre ++ cd :: rest)
    (hpre : ∀ c ∈ pre, occSearch c = none)
    (hcd : occSearch cd = some (rs, re)) :
    parse_room sec =
      some ⟨sec.title,
        Nat.max 1 (pyMax (digitValsIn cd 0 rs) 1),
        match dostSearch cd re with
        | none => 0
        | some es => Nat.max 1 (pyMax (digitValsIn cd re es) 0)⟩ := by
  unfold parse_room
  rw [hsplit, roomLoop_append_no_marker pre (cd :: rest) 1 0 hpre]
  simp only [roomLoop, hcd]
  cases hdost : dostSearch cd re <;> simp [hdost]

/-- Witness for `c2_single_digit_max`: a marker-free title followed by a
`"12 os"` item. -/
theorem c2_single_digit_max_witness :
    parse_room ⟨"klimatyzacja", ["12 os"]⟩ =
      some ⟨"klimatyzacja",
        Nat.max 1 (pyMax (digitValsIn "12 os".data 0 2) 1),
        match dostSearch "12 os".data 5 with
        | none => 0
        | some es => Nat.max 1 (pyMax (digitValsIn "12 os".data 5 es) 0)⟩ :=
  c2_single_digit_max ⟨"klimatyzacja", ["12 os"]⟩ ["klimatyzacja".data]
    "12 os".data [] 2 5 (by decide) (by decide) (by decide)

/-! ## Facts about hotel ingestion -/

/-- A hotel segment without geolocation is dropped without touching any
state. -/
theorem parse_hotel_no_geo (hotels : Dict Hotel) (meals : Dict Meal)
    (c : HotelContent) (m : RawMeal) (h : c.geolocation = none) :
    parse_hotel hotels meals c m = (hotels, meals, none) := by
  simp [parse_hotel, h]

/-- A hotel segment with geolocation yields the hotel's title. -/
theorem parse_hotel_title (hotels : Dict Hotel) (meals : Dict Meal)
    (c : HotelContent) (m : RawMeal) (g : Int × Int)
    (h : c.geolocation = some g) :
    (parse_hotel hotels meals c m).2.2 = some c.title := by
  simp [parse_hotel, h]

/-- **C4 counterexample.**  A rate whose first hotel segment lacks
geolocation and whose second hotel segment has it: the second segment is
ingested (the loop continues past the dropped one), so the rate does
contribute a hotel — the claim says hotel segments after the first are
never ingested and such a rate contributes no hotel. -/
theorem c4_counterexample :
    (hotelSegmentLoop
        [.hotel ⟨"Hotel A", 30, "austria", none, none⟩ ⟨"BB", "Breakfast"⟩,
         .hotel ⟨"Hotel B", 40, "wlochy", none, some (10, 20)⟩ ⟨"HB", "Half board"⟩]
        [] []).2.2 = some "Hotel B" ∧
    alHas (hotelSegmentLoop
        [.hotel ⟨"Hotel A", 30, "austria", none, none⟩ ⟨"BB", "Breakfast"⟩,
         .hotel ⟨"Hotel B", 40, "wlochy", none, some (10, 20)⟩ ⟨"HB", "Half board"⟩]
        [] []).1 "Hotel B" = true := by decide

/-- **C4 (amended).**  The hotel-segment loop dispatches hotel segments
in order until one is geolocated: when every hotel segment lacks
geolocation the rate contributes no hotel and the state is untouched;
when the segments before some geolocated hotel segment are all
non-hotels or geolocation-free hotels, exactly that segment is ingested
and the segments after it are never examined. -/
theorem c4_first_geolocated_hotel_segment :
    (∀ (segs : List RateSegment) (hotels : Dict Hotel) (meals : Dict Meal),
      (∀ c m, RateSegment.hotel c m ∈ segs → c.geolocation = none) →
      hotelSegmentLoop segs hotels meals = (hotels, meals, none)) ∧
    (∀ (pre : List RateSegment) (c : HotelContent) (m : RawMeal)
        (rest : List RateSegment) (hotels : Dict Hotel) (meals : Dict Meal)
        (g : Int × Int),
      (∀ c' m', RateSegment.hotel c' m' ∈ pre → c'.geolocation = none) →
      c.geolocation = some g →
      hotelSegmentLoop (pre ++ RateSegment.hotel c m :: rest) hotels meals =
        ((parse_hotel hotels meals c m).1, (parse_hotel hotels meals c m).2.1,
          some c.title)) := by
  constructor
  · intro segs
    induction segs with
    | nil => intro hotels meals _; rfl
    | cons s rest ih =>
      intro hotels meals h
      cases s with
      | nonHotel t =>
        simp only [hotelSegmentLoop]
        exact ih hotels meals (fun c m hm => h c m (List.mem_cons_of_mem _ hm))
      | hotel c m =>
        have hg := h c m (List.mem_cons_self _ _)
        simp only [hotelSegmentLoop, parse_hotel_no_geo hotels meals c m hg]
        exact ih hotels meals (fun c' m' hm => h c' m' (List.mem_cons_of_mem _ hm))
  · intro pre
    induction pre with
    | nil =>
      intro c m rest hotels meals g _ hgeo
      simp only [List.nil_append, hotelSegmentLoop]
      rcases hp : parse_hotel hotels meals c m with ⟨h1, m1, t1⟩
      have h3 := parse_hotel_title hotels meals c m g hgeo
      rw [hp] at h3
      simp only at h3
      subst h3
      simp [hp]
    | cons s pre' ih =>
      intro c m rest hotels meals g hpre hgeo
      cases s with
      | nonHotel t =>
        simp only [List.cons_append, hotelSegmentLoop]
        exact ih c m rest hotels meals g
          (fun c' m' hm => hpre c' m' (List.mem_cons_of_mem _ hm)) hgeo
      | hotel c' m' =>
        have hg := hpre c' m' (List.mem_cons_self _ _)
        simp only [List.cons_append, hotelSegmentLoop,
          parse_hotel_no_geo hotels meals c' m' hg]
        exact ih c m rest hotels meals g
          (fun c'' m'' hm => hpre c'' m'' (List.mem_cons_of_mem _ hm)) hgeo

/-- Witness for `c4_first_geolocated_hotel_segment`: a dropped hotel
segment followed by a geolocated one. -/
theorem c4_first_geolocated_hotel_segment_witness :
    hotelSegmentLoop [RateSegment.hotel ⟨"HA", 30, "a", none, none⟩ ⟨"BB", "B"⟩] [] []
      = ([], [], none) ∧
    hotelSegmentLoop
        ([RateSegment.hotel ⟨"HA", 30, "a", none, none⟩ ⟨"BB", "B"⟩] ++
          RateSegment.hotel ⟨"HB", 40, "w", none, some (1, 2)⟩ ⟨"HB", "H"⟩ :: []) [] []
      = ((parse_hotel [] [] ⟨"HB", 40, "w", none, some (1, 2)⟩ ⟨"HB", "H"⟩).1,
         (parse_hotel [] [] ⟨"HB", 40, "w", none, some (1, 2)⟩ ⟨"HB", "H"⟩).2.1,
         some "HB") := by
  constructor
  · exact c4_first_geolocated_hotel_segment.1 _ [] []
      (by
        intro c m hm
        simp only [List.mem_singleton] at hm
        injection hm with h1 h2
        subst h1
        rfl)
  · exact c4_first_geolocated_hotel_segment.2 _ _ _ [] [] [] (1, 2)
      (by
        intro c m hm
        simp only [List.mem_singleton] at hm
        injection hm with h1 h2
        subst h1
        rfl)
      rfl

/-! ## Facts about transport-detail ingestion -/

/-- With a present product content the repair never fails and acts as
`specRepair`. -/
theorem repairCity_some (pc : ProductContent) (p : RoutePoint) :
    repairCity (some pc) p = .ok (specRepair pc p) := by
  unfold repairCity specRepair
  split <;> rfl

/-- **C5 counterexample.**  A via stop whose city label equals its code
(`"VIE"`) is stored unrepaired, while the claim requires every member of
the via sequence to get the destination country title (`"Włochy"`). -/
theorem c5_counterexample :
    parse_transport_details (some ⟨"Włochy", []⟩)
        (some ⟨⟨"WAW", "Warszawa"⟩, ⟨"FCO", "Rzym"⟩, [⟨"VIE", "VIE"⟩]⟩) [] [] =
      .ok ([("WAW-VIE-FCO", ⟨⟨"WAW", "Warszawa"⟩, [⟨"VIE", "VIE"⟩], ⟨"FCO", "Rzym"⟩⟩)],
        [("WAW", ⟨"WAW", "Warszawa"⟩), ("FCO", ⟨"FCO", "Rzym"⟩),
         ("VIE", ⟨"VIE", "VIE"⟩)]) ∧
    ("VIE" : String) ≠ "Włochy" := by decide

/-- **C5 (amended).**  The city-label repair is applied to the origin and
destination route points only; the via members are built and stored
verbatim, even when their city label equals their code.  The route is
stored under its key with the repaired endpoints and the verbatim via
sequence, and the route-point map receives the repaired endpoints and the
verbatim via points. -/
theorem c5_city_repair_endpoints_only (pc : ProductContent)
    (td : TransportDetails) (routes : Dict Route) (points : Dict RoutePoint) :
    parse_transport_details (some pc) (some td) routes points =
      .ok (alInsert routes (repairedRoute pc td).key (repairedRoute pc td),
        (td.via.map (fun q => RoutePoint.mk q.code q.city)).foldl
          (fun ps p => alInsert ps p.code p)
          (alInsert
            (alInsert points (repairedRoute pc td).origin.code
              (repairedRoute pc td).origin)
            (repairedRoute pc td).destination.code
            (repairedRoute pc td).destination)) ∧
    alGet (alInsert routes (repairedRoute pc td).key (repairedRoute pc td))
      (repairedRoute pc td).key = some (repairedRoute pc td) := by
  refine ⟨?_, alGet_alInsert_self _ _ _⟩
  simp only [parse_transport_details, repairCity_some]
  rfl

/-- The city-label repair never changes a point's code. -/
theorem repairCity_code (pc : Option ProductContent) (p q : RoutePoint)
    (h : repairCity pc p = .ok q) : q.code = p.code := by
  unfold repairCity at h
  split at h
  · cases pc with
    | none => exact Except.noConfusion h
    | some pcv =>
      injection h with h
      subst h
      rfl
  · injection h with h
    subst h
    rfl

/-- A successful `_parse_transport_details` call stores one route whose
key is the hyphen-joined code sequence of the detail block. -/
theorem parse_transport_details_routes (pc : Option ProductContent)
    (td : TransportDetails) (routes : Dict Route) (points : Dict RoutePoint)
    (r' : Dict Route) (p' : Dict RoutePoint)
    (h : parse_transport_details pc (some td) routes points = .ok (r', p')) :
    ∃ route : Route, route.key = String.intercalate "-" (tdCodes td) ∧
      r' = alInsert routes route.key route := by
  unfold parse_transport_details at h
  simp only at h
  cases hro : repairCity pc ⟨td.fromPoint.code, td.fromPoint.city⟩ with
  | error e => rw [hro] at h; exact Except.noConfusion h
  | ok origin =>
    cases hrd : repairCity pc ⟨td.toPoint.code, td.toPoint.city⟩ with
    | error e => rw [hro, hrd] at h; exact Except.noConfusion h
    | ok destination =>
      rw [hro, hrd] at h
      simp only at h
      refine ⟨⟨origin, td.via.map (fun q => RoutePoint.mk q.code q.city), destination⟩,
        ?_, ?_⟩
      · have hoc := repairCity_code pc _ _ hro
        have hdc := repairCity_code pc _ _ hrd
        unfold Route.key tdCodes
        simp only [List.map_cons, List.map_append, List.map_map, hoc, hdc]
        rfl
      · injection h with h
        injection h with hr hp
        exact hr.symm

/-- **C7.**  Transport details with the same ordered code sequence derive
the same route key: after ingesting one of them the key derived from the
other is already present, and ingesting the second overwrites the
existing entry — the route map's size does not grow. -/
theorem c7_route_key_dedup
    (pc pc' : Option ProductContent) (td td' : TransportDetails)
    (routes r1 r2 : Dict Route) (points p1 p2 : Dict RoutePoint)
    (hcodes : tdCodes td = tdCodes td')
    (h1 : parse_transport_details pc (some td) routes points = .ok (r1, p1))
    (h2 : parse_transport_details pc' (some td') r1 p1 = .ok (r2, p2)) :
    alHas r1 (String.intercalate "-" (tdCodes td')) = true ∧
    r2.length = r1.length := by
  obtain ⟨route, hkey, hr1⟩ := parse_transport_details_routes pc td routes points r1 p1 h1
  obtain ⟨route', hkey', hr2⟩ := parse_transport_details_routes pc' td' r1 p1 r2 p2 h2
  have hhas : alHas r1 (String.intercalate "-" (tdCodes td')) = true := by
    rw [← hcodes, ← hkey, hr1, alHas, alGet_alInsert_self]
    rfl
  refine ⟨hhas, ?_⟩
  rw [hr2]
  exact alInsert_length_of_has r1 route'.key route' (by rwa [hkey'])

/-- Witness for `c7_route_key_dedup`: the same `A → B` hop reported with
two different city labellings. -/
theorem c7_route_key_dedup_witness :
    alHas [("A-B", (⟨⟨"A", "X"⟩, [], ⟨"B", "Y"⟩⟩ : Route))]
      (String.intercalate "-" (tdCodes ⟨⟨"A", "P"⟩, ⟨"B", "Q"⟩, []⟩)) = true ∧
    ([("A-B", (⟨⟨"A", "P"⟩, [], ⟨"B", "Q"⟩⟩ : Route))] : Dict Route).length =
      ([("A-B", (⟨⟨"A", "X"⟩, [], ⟨"B", "Y"⟩⟩ : Route))] : Dict Route).length :=
  c7_route_key_dedup (some ⟨"T", []⟩) (some ⟨"U", []⟩)
    ⟨⟨"A", "X"⟩, ⟨"B", "Y"⟩, []⟩ ⟨⟨"A", "P"⟩, ⟨"B", "Q"⟩, []⟩
    [] [("A-B", ⟨⟨"A", "X"⟩, [], ⟨"B", "Y"⟩⟩)] [("A-B", ⟨⟨"A", "P"⟩, [], ⟨"B", "Q"⟩⟩)]
    [] [("A", ⟨"A", "X"⟩), ("B", ⟨"B", "Y"⟩)] [("A", ⟨"A", "P"⟩), ("B", ⟨"B", "Q"⟩)]
    (by decide) (by decide) (by decide)


/-! ## Facts about the per-rate loop -/

/-- The room phase never touches the stored rates. -/
theorem roomPhase_rates (pc : Option ProductContent) (t : Option String)
    (ds : DataSet) : (roomPhase pc t ds).rates = ds.rates := by
  cases t with
  | none => cases pc <;> rfl
  | some title =>
    cases pc with
    | none => rfl
    | some pcv =>
      show (match alGet ds.hotels title with
            | none => ds
            | some h =>
              { ds with hotels := alInsert ds.hotels title (parse_rooms h pcv) }).rates
          = ds.rates
      cases alGet ds.hotels title <;> rfl

/-- **C3 counterexample.**  A rate whose id is absent from the
product-content map is not tolerated: the id subscript raises a
`KeyError` and the whole assembly fails, although the claim says absent
side data on either map never makes assembly fail. -/
theorem c3_counterexample :
    c3raw.transport_details = some [] ∧
    c3raw.all_product_content = some [] ∧
    alGet ([] : Dict (Option ProductContent)) "r1" = none ∧
    from_raw c3raw = .error (.keyLookup "r1") := by decide

/-- **C3 (amended).**  A rate whose id is absent from the
transport-details map is tolerated (that lookup uses `.get`): provided
its id is in the product-content map, the rate is still deep-copied and
recorded with `detailedSegments = None` and the loop continues with the
next rate.  A rate whose id is absent from the product-content map,
however, aborts the step with a `KeyError` on that id. -/
theorem c3_missing_side_data :
    (∀ (raw_td : Dict (Option (List DetailedSegment)))
        (raw_pc : Dict (Option ProductContent)) (ds : DataSet) (rate : RawRate)
        (pc : Option ProductContent),
      alGet raw_td rate.id = none → alGet raw_pc rate.id = some pc →
      ∃ ds', parseRateStep raw_td raw_pc ds rate = .ok ds' ∧
        alGet ds'.rates rate.id = some ⟨rate, none, pc⟩ ∧
        ∀ rest, ratesLoop raw_td raw_pc (rate :: rest) ds =
          ratesLoop raw_td raw_pc rest ds') ∧
    (∀ (raw_td : Dict (Option (List DetailedSegment)))
        (raw_pc : Dict (Option ProductContent)) (ds : DataSet) (rate : RawRate),
      alGet raw_pc rate.id = none →
      parseRateStep raw_td raw_pc ds rate = .error (.keyLookup rate.id)) := by
  constructor
  · intro raw_td raw_pc ds rate pc htd hpc
    have hstep : ∃ ds', parseRateStep raw_td raw_pc ds rate = .ok ds' ∧
        alGet ds'.rates rate.id = some ⟨rate, none, pc⟩ := by
      unfold parseRateStep
      rw [hpc, htd]
      simp only [Option.none_bind, Option.getD_none, transportLoop]
      exact ⟨_, rfl, by simp [roomPhase_rates, alGet_alInsert_self]⟩
    obtain ⟨ds', hok, hrates⟩ := hstep
    exact ⟨ds', hok, hrates, fun rest => by rw [ratesLoop, hok]⟩
  · intro raw_td raw_pc ds rate hpc
    unfold parseRateStep
    rw [hpc]

/-- Witness for `c3_missing_side_data`: a rate covered only by the
product-content map, and a rate covered by neither map. -/
theorem c3_missing_side_data_witness :
    (∃ ds', parseRateStep [] [("r1", none)] emptyDataSet ⟨"r1", some []⟩ = .ok ds' ∧
      alGet ds'.rates "r1" = some ⟨⟨"r1", some []⟩, none, none⟩ ∧
      ∀ rest, ratesLoop [] [("r1", none)] (⟨"r1", some []⟩ :: rest) emptyDataSet =
        ratesLoop [] [("r1", none)] rest ds') ∧
    parseRateStep [] [] emptyDataSet ⟨"r2", none⟩ = .error (.keyLookup "r2") :=
  ⟨c3_missing_side_data.1 [] [("r1", none)] emptyDataSet ⟨"r1", some []⟩ none
      (by decide) (by decide),
   c3_missing_side_data.2 [] [] emptyDataSet ⟨"r2", none⟩ (by decide)⟩

/-! ## Facts about the cleanup pass -/

/-- Membership in the cleaned hotel map: exactly the entries with a
non-empty room list and a non-empty meal list survive. -/
theorem cleanup_mem (hotels : Dict Hotel) (p : String × Hotel) :
    p ∈ cleanup_incomplete_hotels hotels ↔
      p ∈ hotels ∧ p.2.rooms ≠ [] ∧ p.2.meals ≠ [] := by
  unfold cleanup_incomplete_hotels
  rw [List.mem_filter]
  simp

/-- **C9.**  Every hotel in an assembled dataset has a non-empty meal
list and a non-empty room list; the cleanup pass removes exactly the
hotels with an empty meal list or an empty room list, so a hotel with a
room but no meals is dropped while one with both survives. -/
theorem c9_cleanup_invariant (raw : RawDataSet) (ds : DataSet)
    (h : from_raw raw = .ok ds) :
    (∀ p ∈ ds.hotels, p.2.rooms ≠ [] ∧ p.2.meals ≠ []) ∧
    (∀ (hotels : Dict Hotel) (p : String × Hotel),
      p ∈ cleanup_incomplete_hotels hotels ↔
        p ∈ hotels ∧ p.2.rooms ≠ [] ∧ p.2.meals ≠ []) ∧
    cleanup_incomplete_hotels
        [("H1", ⟨"H1", 30, "c", none, 0, 0, [], [⟨"r", 2, 0⟩]⟩),
         ("H2", ⟨"H2", 30, "c", none, 0, 0, [⟨"m", "M"⟩], [⟨"r", 2, 0⟩]⟩)]
      = [("H2", ⟨"H2", 30, "c", none, 0, 0, [⟨"m", "M"⟩], [⟨"r", 2, 0⟩]⟩)] := by
  refine ⟨?_, cleanup_mem, by decide⟩
  unfold from_raw at h
  cases hreg : parse_destination_regions raw.destination_regions with
  | error e => rw [hreg] at h; exact Except.noConfusion h
  | ok countries =>
    rw [hreg] at h
    unfold parse_rates at h
    cases hrr : raw.rates with
    | none => rw [hrr] at h; exact Except.noConfusion h
    | some rates =>
      cases htd : raw.transport_details with
      | none => rw [hrr, htd] at h; exact Except.noConfusion h
      | some td =>
        cases hpc : raw.all_product_content with
        | none => rw [hrr, htd, hpc] at h; exact Except.noConfusion h
        | some pcm =>
          rw [hrr, htd, hpc] at h
          simp only at h
          cases hloop : ratesLoop td pcm rates
              { emptyDataSet with countries := countries } with
          | error e => rw [hloop] at h; exact Except.noConfusion h
          | ok ds1 =>
            rw [hloop] at h
            injection h with h
            intro p hp
            rw [← h] at hp
            have hmem := (cleanup_mem ds1.hotels p).mp hp
            exact ⟨hmem.2.1, hmem.2.2⟩

/-- Witness for `c9_cleanup_invariant` at the empty raw bundle. -/
theorem c9_cleanup_invariant_witness :
    (∀ p ∈ emptyDataSet.hotels, p.2.rooms ≠ [] ∧ p.2.meals ≠ []) ∧
    (∀ (hotels : Dict Hotel) (p : String × Hotel),
      p ∈ cleanup_incomplete_hotels hotels ↔
        p ∈ hotels ∧ p.2.rooms ≠ [] ∧ p.2.meals ≠ []) ∧
    cleanup_incomplete_hotels
        [("H1", ⟨"H1", 30, "c", none, 0, 0, [], [⟨"r", 2, 0⟩]⟩),
         ("H2", ⟨"H2", 30, "c", none, 0, 0, [⟨"m", "M"⟩], [⟨"r", 2, 0⟩]⟩)]
      = [("H2", ⟨"H2", 30, "c", none, 0, 0, [⟨"m", "M"⟩], [⟨"r", 2, 0⟩]⟩)] :=
  c9_cleanup_invariant ⟨some [], some [], some [], some []⟩ emptyDataSet (by decide)

/-! ## Facts about the region passes -/

/-- Inserting at a key already present leaves every key's presence
unchanged. -/
theorem alHas_alInsert_of_has {α : Type} (m : Dict α) (k j : String) (v : α)
    (h : alHas m k = true) : alHas (alInsert m k v) j = alHas m j := by
  rw [alHas_alInsert]
  split
  · next hjk => rw [hjk]; exact h.symm
  · rfl

/-- Insertion never removes a present key. -/
theorem alHas_alInsert_mono {α : Type} (m : Dict α) (k j : String) (v : α)
    (h : alHas m j = true) : alHas (alInsert m k v) j = true := by
  rw [alHas_alInsert]
  split
  · rfl
  · exact h

/-- An absent key looks up to nothing. -/
theorem alGet_eq_none_of_not_has {α : Type} (m : Dict α) (k : String)
    (h : alHas m k = false) : alGet m k = none := by
  unfold alHas at h
  cases hg : alGet m k with
  | none => rfl
  | some v => rw [hg] at h; exact absurd h (by simp)

/-- Any key present after the country pass either was present in the
accumulator or is the identifier of a non-ski country region. -/
theorem countryPass_foldl_has (regions : List RawRegion) (acc : Dict Country)
    (k : String)
    (h : alHas (regions.foldl
        (fun countries region =>
          if region.type = "country" ∧ strEndsWith region.value skiSuffix = false then
            alInsert countries region.value ⟨region.value, region.title, []⟩
          else countries) acc) k = true) :
    alHas acc k = true ∨
      ∃ r ∈ regions, r.type = "country" ∧ strEndsWith r.value skiSuffix = false ∧
        r.value = k := by
  induction regions generalizing acc with
  | nil => exact Or.inl h
  | cons r0 rest ih =>
    rw [List.foldl_cons] at h
    rcases ih _ h with hacc | ⟨r, hr, h1, h2, h3⟩
    · by_cases hcond : r0.type = "country" ∧ strEndsWith r0.value skiSuffix = false
      · rw [if_pos hcond, alHas_alInsert] at hacc
        by_cases hk : k = r0.value
        · exact Or.inr ⟨r0, List.mem_cons_self _ _, hcond.1, hcond.2, hk.symm⟩
        · rw [if_neg hk] at hacc
          exact Or.inl hacc
      · rw [if_neg hcond] at hacc
        exact Or.inl hacc
    · exact Or.inr ⟨r, List.mem_cons_of_mem _ hr, h1, h2, h3⟩

/-- Any key of the country pass's result is the identifier of a region of
type `"country"` without the ski suffix. -/
theorem countryPass_has (regions : List RawRegion) (k : String)
    (h : alHas (countryPass regions) k = true) :
    ∃ r ∈ regions, r.type = "country" ∧ strEndsWith r.value skiSuffix = false ∧
      r.value = k := by
  rcases countryPass_foldl_has regions [] k h with hacc | hex
  · exact absurd hacc (by simp [alHas, alGet])
  · exact hex

/-- The province pass only updates countries in place: it creates and
deletes no keys. -/
theorem provincePass_has (regions : List RawRegion) (cs cs' : Dict Country)
    (hok : provincePass regions cs = .ok cs') (j : String) :
    alHas cs' j = alHas cs j := by
  induction regions generalizing cs with
  | nil =>
    unfold provincePass at hok
    injection hok with hok
    rw [hok]
  | cons r0 rest ih =>
    unfold provincePass at hok
    by_cases htype : r0.type = "province"
    · rw [if_pos htype] at hok
      cases hg : alGet cs (removesuffix r0.parent skiSuffix) with
      | none => rw [hg] at hok; exact Except.noConfusion hok
      | some c0 =>
        rw [hg] at hok
        have hhas : alHas cs (removesuffix r0.parent skiSuffix) = true := by
          unfold alHas; rw [hg]; rfl
        rw [ih _ hok, alHas_alInsert_of_has _ _ _ _ hhas]
    · rw [if_neg htype] at hok
      exact ih _ hok

/-- A city already attached to a country stays attached through the rest
of the province pass. -/
theorem provincePass_mono (regions : List RawRegion) (cs cs' : Dict Country)
    (k cv : String) (c : Country)
    (hok : provincePass regions cs = .ok cs')
    (hc : alGet cs k = some c) (hcv : alHas c.cities cv = true) :
    ∃ c', alGet cs' k = some c' ∧ alHas c'.cities cv = true := by
  induction regions generalizing cs c with
  | nil =>
    unfold provincePass at hok
    injection hok with hok
    exact ⟨c, by rw [← hok]; exact hc, hcv⟩
  | cons r0 rest ih =>
    unfold provincePass at hok
    by_cases htype : r0.type = "province"
    · rw [if_pos htype] at hok
      cases hg : alGet cs (removesuffix r0.parent skiSuffix) with
      | none => rw [hg] at hok; exact Except.noConfusion hok
      | some c0 =>
        rw [hg] at hok
        by_cases hk : k = removesuffix r0.parent skiSuffix
        · subst hk
          have hc0 : c0 = c := by
            rw [hg] at hc
            injection hc
          refine ih _ { c0 with cities := alInsert c0.cities r0.value ⟨r0.value, r0.title⟩ }
            hok (alGet_alInsert_self _ _ _) ?_
          show alHas (alInsert c0.cities r0.value ⟨r0.value, r0.title⟩) cv = true
          exact alHas_alInsert_mono _ _ _ _ (by rw [hc0]; exact hcv)
        · refine ih _ c hok ?_ hcv
          rw [alGet_alInsert_ne _ _ _ _ hk]
          exact hc
    · rw [if_neg htype] at hok
      exact ih _ c hok hc hcv

/-- A successful province pass attaches each province's city to the
country looked up under its suffix-stripped parent. -/
theorem provincePass_attaches (regions : List RawRegion) (cs cs' : Dict Country)
    (hok : provincePass regions cs = .ok cs') (r : RawRegion)
    (hmem : r ∈ regions) (htype : r.type = "province") :
    ∃ c', alGet cs' (removesuffix r.parent skiSuffix) = some c' ∧
      alHas c'.cities r.value = true := by
  induction regions generalizing cs with
  | nil => exact absurd hmem (List.not_mem_nil r)
  | cons r0 rest ih =>
    unfold provincePass at hok
    rcases List.mem_cons.mp hmem with heq | hmem'
    · subst heq
      rw [if_pos htype] at hok
      cases hg : alGet cs (removesuffix r.parent skiSuffix) with
      | none => rw [hg] at hok; exact Except.noConfusion hok
      | some c0 =>
        rw [hg] at hok
        exact provincePass_mono rest _ cs' _ r.value _ hok (alGet_alInsert_self _ _ _)
          (by unfold alHas; rw [alGet_alInsert_self]; rfl)
    · by_cases htype0 : r0.type = "province"
      · rw [if_pos htype0] at hok
        cases hg : alGet cs (removesuffix r0.parent skiSuffix) with
        | none => rw [hg] at hok; exact Except.noConfusion hok
        | some c0 =>
          rw [hg] at hok
          exact ih _ hok hmem'
      · rw [if_neg htype0] at hok
        exact ih _ hok hmem'

/-- **C8.**  Region parsing never creates a country entry under an
identifier carrying the `"-narty"` suffix, and every province record of a
successfully parsed region list has its city attached to the country
stored under its parent identifier with the suffix stripped. -/
theorem c8_ski_suffix_countries (regions : List RawRegion)
    (countries : Dict Country)
    (h : parse_destination_regions (some regions) = .ok countries) :
    (∀ k, strEndsWith k skiSuffix = true → alGet countries k = none) ∧
    (∀ r ∈ regions, r.type = "province" →
      ∃ c, alGet countries (removesuffix r.parent skiSuffix) = some c ∧
        alHas c.cities r.value = true) := by
  have hpp : provincePass regions (countryPass regions) = .ok countries := h
  constructor
  · intro k hski
    apply alGet_eq_none_of_not_has
    rw [provincePass_has regions _ _ hpp k]
    cases hhas : alHas (countryPass regions) k with
    | false => rfl
    | true =>
      obtain ⟨r, _, _, hend, hval⟩ := countryPass_has regions k hhas
      rw [hval] at hend
      rw [hend] at hski
      exact Bool.noConfusion hski
  · intro r hmem htype
    exact provincePass_attaches regions _ countries hpp r hmem htype

/-- A province whose suffix-stripped parent is absent from the country
map makes the province pass fail with a key-lookup error. -/
theorem provincePass_orphan (regions : List RawRegion) (cs : Dict Country)
    (r : RawRegion) (hmem : r ∈ regions) (htype : r.type = "province")
    (hmiss : alHas cs (removesuffix r.parent skiSuffix) = false) :
    ∃ k, provincePass regions cs = .error (.keyLookup k) := by
  induction regions generalizing cs with
  | nil => exact absurd hmem (List.not_mem_nil r)
  | cons r0 rest ih =>
    rcases List.mem_cons.mp hmem with heq | hmem'
    · subst heq
      refine ⟨removesuffix r.parent skiSuffix, ?_⟩
      unfold provincePass
      rw [if_pos htype, alGet_eq_none_of_not_has _ _ hmiss]
    · by_cases htype0 : r0.type = "province"
      · cases hg : alGet cs (removesuffix r0.parent skiSuffix) with
        | none =>
          refine ⟨removesuffix r0.parent skiSuffix, ?_⟩
          unfold provincePass
          rw [if_pos htype0, hg]
        | some c0 =>
          have hhas0 : alHas cs (removesuffix r0.parent skiSuffix) = true := by
            unfold alHas; rw [hg]; rfl
          obtain ⟨k, hk⟩ := ih (alInsert cs (removesuffix r0.parent skiSuffix)
              { c0 with cities := alInsert c0.cities r0.value ⟨r0.value, r0.title⟩ })
            hmem' (by rw [alHas_alInsert_of_has _ _ _ _ hhas0]; exact hmiss)
          refine ⟨k, ?_⟩
          unfold provincePass
          rw [if_pos htype0, hg]
          exact hk
      · obtain ⟨k, hk⟩ := ih _ hmem' hmiss
        refine ⟨k, ?_⟩
        unfold provincePass
        rw [if_neg htype0]
        exact hk

/-- **C10.**  A province record whose suffix-stripped parent matches no
non-ski country region makes the whole assembly abort with a key-lookup
error: the code implements the strict variant (raise on unresolved
parent), never silently skipping the orphan city. -/
theorem c10_unresolved_parent_aborts (raw : RawDataSet) (regions : List RawRegion)
    (r : RawRegion) (hreg : raw.destination_regions = some regions)
    (hmem : r ∈ regions) (htype : r.type = "province")
    (horphan : ∀ q ∈ regions, q.type = "country" →
      strEndsWith q.value skiSuffix = false →
      q.value ≠ removesuffix r.parent skiSuffix) :
    ∃ k, from_raw raw = .error (.keyLookup k) := by
  have hmiss : alHas (countryPass regions) (removesuffix r.parent skiSuffix) = false := by
    cases hhas : alHas (countryPass regions) (removesuffix r.parent skiSuffix) with
    | false => rfl
    | true =>
      obtain ⟨q, hq, hq1, hq2, hq3⟩ := countryPass_has _ _ hhas
      exact absurd hq3 (horphan q hq hq1 hq2)
  obtain ⟨k, hk⟩ := provincePass_orphan regions (countryPass regions) r hmem htype hmiss
  refine ⟨k, ?_⟩
  unfold from_raw
  have hpd : parse_destination_regions raw.destination_regions = .error (.keyLookup k) := by
    rw [hreg]
    exact hk
  rw [hpd]

/-- Witness for `c10_unresolved_parent_aborts`: a lone orphan province. -/
theorem c10_unresolved_parent_aborts_witness :
    ∃ k, from_raw ⟨some [⟨"province", "paryz", "Paryż", "francja"⟩], none, none, none⟩ =
      .error (.keyLookup k) :=
  c10_unresolved_parent_aborts _ [⟨"province", "paryz", "Paryż", "francja"⟩]
    ⟨"province", "paryz", "Paryż", "francja"⟩ rfl (by decide) rfl (by decide)

/-- Witness for `c8_ski_suffix_countries` at a three-region list with a
ski-suffixed country and a province attached through it. -/
theorem c8_ski_suffix_countries_witness :
    (∀ k, strEndsWith k skiSuffix = true →
      alGet [("austria",
        (⟨"austria", "Austria", [("tyrol", ⟨"tyrol", "Tyrol"⟩)]⟩ : Country))] k = none) ∧
    (∀ r ∈ [(⟨"country", "austria", "Austria", ""⟩ : RawRegion),
            ⟨"country", "austria-narty", "Austria zima", ""⟩,
            ⟨"province", "tyrol", "Tyrol", "austria-narty"⟩],
      r.type = "province" →
      ∃ c, alGet [("austria",
          (⟨"austria", "Austria", [("tyrol", ⟨"tyrol", "Tyrol"⟩)]⟩ : Country))]
          (removesuffix r.parent skiSuffix) = some c ∧
        alHas c.cities r.value = true) :=
  c8_ski_suffix_countries
    [⟨"country", "austria", "Austria", ""⟩,
     ⟨"country", "austria-narty", "Austria zima", ""⟩,
     ⟨"province", "tyrol", "Tyrol", "austria-narty"⟩]
    [("austria", ⟨"austria", "Austria", [("tyrol", ⟨"tyrol", "Tyrol"⟩)]⟩)]
    (by decide)

/-! ## Facts about assembly success and failure -/

/-- With a present product content, transport-detail parsing never
fails. -/
theorem parse_transport_details_some_ok (pcv : ProductContent)
    (td? : Option TransportDetails) (routes : Dict Route)
    (points : Dict RoutePoint) :
    ∃ out, parse_transport_details (some pcv) td? routes points = .ok out := by
  cases td? with
  | none => exact ⟨_, rfl⟩
  | some td =>
    unfold parse_transport_details
    simp only
    rw [repairCity_some, repairCity_some]
    exact ⟨_, rfl⟩

/-- With a present product content, the transport-segment loop never
fails. -/
theorem transportLoop_some_ok (pcv : ProductContent) (segs : List DetailedSegment) :
    ∀ ds : DataSet, ∃ ds', transportLoop (some pcv) segs ds = .ok ds' := by
  induction segs with
  | nil => exact fun ds => ⟨ds, rfl⟩
  | cons seg rest ih =>
    intro ds
    unfold transportLoop
    by_cases hf : seg.type = "flight"
    · rw [if_pos hf]
      obtain ⟨⟨fr, ap⟩, hout⟩ :=
        parse_transport_details_some_ok pcv seg.transportDetails ds.flight_routes ds.airports
      rw [hout]
      exact ih _
    · rw [if_neg hf]
      by_cases hb : seg.type = "bus"
      · rw [if_pos hb]
        obtain ⟨⟨br, bs⟩, hout⟩ :=
          parse_transport_details_some_ok pcv seg.transportDetails ds.bus_routes ds.bus_stops
        rw [hout]
        exact ih _
      · rw [if_neg hb]
        exact ih _

/-- A rate whose id maps to a present, non-null product content is
processed without error. -/
theorem parseRateStep_some_ok (raw_td : Dict (Option (List DetailedSegment)))
    (raw_pc : Dict (Option ProductContent)) (ds : DataSet) (rate : RawRate)
    (pcv : ProductContent)
    (hpc : alGet raw_pc rate.id = some (some pcv)) :
    ∃ ds', parseRateStep raw_td raw_pc ds rate = .ok ds' := by
  unfold parseRateStep
  rw [hpc]
  simp only
  split
  · next e heq =>
    obtain ⟨ds', h'⟩ := transportLoop_some_ok pcv _ _
    rw [heq] at h'
    exact Except.noConfusion h'
  · next ds1 heq =>
    exact ⟨_, rfl⟩

/-- The rate loop succeeds when every rate's id maps to a present,
non-null product content. -/
theorem ratesLoop_some_ok (raw_td : Dict (Option (List DetailedSegment)))
    (raw_pc : Dict (Option ProductContent)) (rates : List RawRate)
    (hcov : ∀ rate ∈ rates, ∃ pcv, alGet raw_pc rate.id = some (some pcv)) :
    ∀ ds : DataSet, ∃ ds', ratesLoop raw_td raw_pc rates ds = .ok ds' := by
  induction rates with
  | nil => exact fun ds => ⟨ds, rfl⟩
  | cons rate rest ih =>
    intro ds
    obtain ⟨pcv, hpc⟩ := hcov rate (List.mem_cons_self _ _)
    obtain ⟨ds1, h1⟩ := parseRateStep_some_ok raw_td raw_pc ds rate pcv hpc
    unfold ratesLoop
    rw [h1]
    exact ih (fun r hr => hcov r (List.mem_cons_of_mem _ hr)) ds1

/-- **C6 counterexample.**  All four top-level collections are supplied,
yet assembly fails (with a `KeyError`, producing no dataset), so
"when all four are supplied, assembly succeeds and returns a dataset"
is false as stated. -/
theorem c6_counterexample :
    c6raw.destination_regions ≠ none ∧ c6raw.rates ≠ none ∧
    c6raw.transport_details ≠ none ∧ c6raw.all_product_content ≠ none ∧
    from_raw c6raw = .error (.keyLookup "r1") ∧
    ∀ ds : DataSet, from_raw c6raw ≠ .ok ds := by
  refine ⟨by decide, by decide, by decide, by decide, by decide, ?_⟩
  intro ds h
  rw [show from_raw c6raw = .error (.keyLookup "r1") from by decide] at h
  exact Except.noConfusion h

/-- **C6 (amended).**  Assembly fails with `MissingInputError` whenever
the regions collection is absent, and whenever the regions parse
successfully but any of the other three collections is absent.  When all
four are supplied, assembly succeeds provided region parsing succeeds
and every rate's id maps to a present, non-null product content; in
particular, with all four supplied empty it returns the empty dataset.
On every failure path no dataset is produced (the result is an error,
not a dataset). -/
theorem c6_missing_input :
    (∀ raw : RawDataSet, raw.destination_regions = none →
      from_raw raw = .error .missingInput) ∧
    (∀ (raw : RawDataSet) (regions : List RawRegion) (countries : Dict Country),
      raw.destination_regions = some regions →
      parse_destination_regions (some regions) = .ok countries →
      (raw.rates = none ∨ raw.transport_details = none ∨
        raw.all_product_content = none) →
      from_raw raw = .error .missingInput) ∧
    (∀ (regions : List RawRegion) (countries : Dict Country)
        (rates : List RawRate) (td : Dict (Option (List DetailedSegment)))
        (pcm : Dict (Option ProductContent)),
      parse_destination_regions (some regions) = .ok countries →
      (∀ rate ∈ rates, ∃ pcv, alGet pcm rate.id = some (some pcv)) →
      ∃ ds, from_raw ⟨some regions, some rates, some td, some pcm⟩ = .ok ds) ∧
    from_raw ⟨some [], some [], some [], some []⟩ = .ok emptyDataSet := by
  refine ⟨?_, ?_, ?_, by decide⟩
  · intro raw h
    unfold from_raw
    rw [h]
    rfl
  · intro raw regions countries hreg hok hmiss
    unfold from_raw
    rw [hreg, hok]
    unfold parse_rates
    cases hr : raw.rates with
    | none => rfl
    | some rates =>
      cases ht : raw.transport_details with
      | none => rfl
      | some td =>
        cases hp : raw.all_product_content with
        | none => rfl
        | some pcm =>
          rcases hmiss with h | h | h
          · rw [hr] at h; exact Option.noConfusion h
          · rw [ht] at h; exact Option.noConfusion h
          · rw [hp] at h; exact Option.noConfusion h
  · intro regions countries rates td pcm hok hcov
    obtain ⟨ds1, h1⟩ :=
      ratesLoop_some_ok td pcm rates hcov { emptyDataSet with countries := countries }
    simp only at h1
    unfold from_raw
    simp only
    rw [hok]
    unfold parse_rates
    simp only
    rw [h1]
    exact ⟨_, rfl⟩

/-- Witness for `c6_missing_input` at concrete bundles. -/
theorem c6_missing_input_witness :
    from_raw ⟨none, none, none, none⟩ = .error .missingInput ∧
    from_raw ⟨some [], none, none, none⟩ = .error .missingInput ∧
    (∃ ds, from_raw ⟨some [], some [⟨"r1", some []⟩], some [],
        some [("r1", some ⟨"PL", []⟩)]⟩ = .ok ds) ∧
    from_raw ⟨some [], some [], some [], some []⟩ = .ok emptyDataSet :=
  ⟨c6_missing_input.1 _ rfl,
   c6_missing_input.2.1 ⟨some [], none, none, none⟩ [] [] rfl (by decide) (Or.inl rfl),
   c6_missing_input.2.2.1 [] [] [⟨"r1", some []⟩] [] [("r1", some ⟨"PL", []⟩)]
     (by decide)
     (by
       intro rate hr
       simp only [List.mem_singleton] at hr
       subst hr
       exact ⟨⟨"PL", []⟩, by decide⟩),
   c6_missing_input.2.2.2⟩
